import Mathlib

/-!
Verification of the paper-trading execution and portfolio-state engine of the
`cryptostalker` repository (`src/src/paper_trading.py`, class
`PaperTradingStrategy`).  Money amounts are modelled as exact rationals;
Python dictionaries (`holdings`, `last_prices`, account balances) are
modelled as association lists with first-match lookup and in-place update;
the Binance client is an explicit collaborator record whose fallible calls
return `Except`.
-/

namespace PaperTrading

/-- Python `d.get(k, 0)`: first entry whose key matches, defaulting to 0. -/
def dictGet (d : List (String × ℚ)) (k : String) : ℚ :=
  match d with
  | [] => 0
  | p :: rest => if p.1 = k then p.2 else dictGet rest k

/-- Python `d[k] = v` on a dict: replace the entry in place if the key is
present, otherwise insert at the end (dict insertion order). -/
def dictSet (d : List (String × ℚ)) (k : String) (v : ℚ) : List (String × ℚ) :=
  match d with
  | [] => [(k, v)]
  | p :: rest => if p.1 = k then (k, v) :: rest else p :: dictSet rest k v

/-- `np.floor(quantity * 10**precision) / 10**precision`. -/
def floor_to (precision : Nat) (q : ℚ) : ℚ :=
  (⌊q * 10 ^ precision⌋ : ℚ) / 10 ^ precision

/-- `strategy_params` of the Python class: moving-average windows and RSI
thresholds (`short_window`, `long_window`, `rsi_period`, `rsi_overbought`,
`rsi_oversold`). -/
structure StrategyParams where
  short_window : Nat
  long_window : Nat
  rsi_period : Nat
  rsi_overbought : ℚ
  rsi_oversold : ℚ

/-- One row of the indicator frame handed to `generate_signals` (only the
columns that function reads). -/
structure Bar where
  SMA_short : ℚ
  SMA_long : ℚ
  RSI : ℚ

/-- An executed-trade record as appended to `trade_history`.  Paper trades
carry `balance_after`/`holdings_after` and no `order_id`; live trades carry
`order_id` and no balance fields, so those keys are `Option`s. -/
structure Trade where
  timestamp : String
  symbol : String
  side : String
  quantity : ℚ
  price : ℚ
  value : ℚ
  balance_after : Option ℚ
  holdings_after : Option ℚ
  type : String
  order_id : Option Nat

/-- A point of `equity_history`. -/
structure EquityPoint where
  timestamp : String
  equity : ℚ

/-- The credential-bearing part of the configuration dict (`api_key`,
`api_secret`, `mode`); the remaining config entries are not read by the
operations modelled here. -/
structure Config where
  api_key : String
  api_secret : String
  mode : String

/-- The mutable state of a `PaperTradingStrategy` instance: the
`PortfolioState` fields plus the configuration parameters the modelled
operations read. -/
structure Strategy where
  balance : ℚ
  holdings : List (String × ℚ)
  open_orders : List String
  equity_history : List EquityPoint
  trade_history : List Trade
  last_prices : List (String × ℚ)
  mode : String
  base_currency : String
  risk_percentage : ℚ
  initial_balance : ℚ
  symbols : List String
  is_running : Bool
  config : Config

/-- The Binance client collaborator.  `exchange_precision` is the LOT_SIZE
step-size precision derived by `round_quantity` from `get_exchange_info`
(`none` when the call fails or no filter matches); the remaining calls
return `Except` to model raised `BinanceAPIException`s. -/
structure ExchangeClient where
  exchange_precision : String → Option Nat
  get_account : Except String (List (String × ℚ))
  create_order : String → String → ℚ → Except String Nat
  get_symbol_ticker : String → Except String ℚ

/-- `round_quantity(symbol, quantity)`: floor to the exchange-derived
precision when available, otherwise to the default 5 decimal places (both
the no-filter path and the exception handler use 5). -/
def round_quantity (client : ExchangeClient) (symbol : String) (quantity : ℚ) : ℚ :=
  floor_to ((client.exchange_precision symbol).getD 5) quantity

/-- `reset_account()`: balance back to `initial_balance`, zero holdings for
each configured symbol, empty open orders and last prices, and a fresh
single-point equity history (the `save_state` side effect is a file write
and does not change the in-memory state). -/
def reset_account (st : Strategy) (now : String) : Strategy :=
  { st with
    balance := st.initial_balance
    holdings := st.symbols.map (fun s => (s, 0))
    open_orders := []
    equity_history := [{ timestamp := now, equity := st.initial_balance }]
    last_prices := [] }

/-- `paper_trade(symbol, signal, current_price, ...)`: simulated execution.
Signal `0` is a no-op; a positive signal buys a risk-percentage-sized,
precision-floored clip when the balance is positive and the rounded
quantity is positive; a negative signal liquidates the entire holding when
it is positive.  Returns the updated state and the trade record (if any). -/
def paper_trade (client : ExchangeClient) (st : Strategy) (symbol : String)
    (signal : Int) (current_price : ℚ) (timestamp : String) :
    Strategy × Option Trade :=
  if signal = 0 then (st, none)
  else if 0 < signal then
    if st.balance ≤ 0 then (st, none)
    else
      let risk_amount := st.balance * (st.risk_percentage / 100)
      let quantity := round_quantity client symbol (risk_amount / current_price)
      if quantity ≤ 0 then (st, none)
      else
        let cost := quantity * current_price
        let new_balance := st.balance - cost
        let new_holding := dictGet st.holdings symbol + quantity
        let trade : Trade :=
          { timestamp := timestamp, symbol := symbol, side := "BUY"
            quantity := quantity, price := current_price, value := cost
            balance_after := some new_balance
            holdings_after := some new_holding
            type := if st.mode = "paper" then "paper" else "live"
            order_id := none }
        ({ st with
            balance := new_balance
            holdings := dictSet st.holdings symbol new_holding
            trade_history := st.trade_history ++ [trade] }, some trade)
  else
    let current_holdings := dictGet st.holdings symbol
    if current_holdings ≤ 0 then (st, none)
    else
      let value := current_holdings * current_price
      let new_balance := st.balance + value
      let trade : Trade :=
        { timestamp := timestamp, symbol := symbol, side := "SELL"
          quantity := current_holdings, price := current_price, value := value
          balance_after := some new_balance
          holdings_after := some 0
          type := if st.mode = "paper" then "paper" else "live"
          order_id := none }
      ({ st with
          balance := new_balance
          holdings := dictSet st.holdings symbol 0
          trade_history := st.trade_history ++ [trade] }, some trade)

/-- One invocation of `paper_trade` inside a sequence of executions. -/
structure TradeOp where
  symbol : String
  signal : Int
  price : ℚ
  timestamp : String

/-- Run a sequence of `paper_trade` executions, threading the state. -/
def run_paper_trades (client : ExchangeClient) (st : Strategy)
    (ops : List TradeOp) : Strategy :=
  ops.foldl (fun s o => (paper_trade client s o.symbol o.signal o.price o.timestamp).1) st

/-- A client with no connectivity: every exchange call fails and no
precision metadata is available (so `round_quantity` floors to 5 places). -/
def offline_client : ExchangeClient :=
  { exchange_precision := fun _ => none
    get_account := .error "APIError: connection refused"
    create_order := fun _ _ _ => .error "APIError: connection refused"
    get_symbol_ticker := fun _ => .error "APIError: connection refused" }

/-- A strategy carrying the hard-coded defaults of `__init__` /
`reset_account`: balance 10000 USDT, risk 2 %, one symbol, paper mode,
empty credentials. -/
def default_strategy : Strategy :=
  { balance := 10000
    holdings := [("BTCUSDT", 0)]
    open_orders := []
    equity_history := [{ timestamp := "t0", equity := 10000 }]
    trade_history := []
    last_prices := []
    mode := "paper"
    base_currency := "USDT"
    risk_percentage := 2
    initial_balance := 10000
    symbols := ["BTCUSDT"]
    is_running := false
    config := { api_key := "", api_secret := "", mode := "paper" } }

/-- The default account after the scenario-1 BUY: 9800 in cash and 2 units
of the symbol held. -/
def held_strategy : Strategy :=
  { default_strategy with balance := 9800, holdings := [("BTCUSDT", 2)] }

/-- `live_trade(symbol, signal, current_price, ...)`: real execution.  Acts
only in live mode on a non-zero signal.  Every Binance call can raise
(`Except.error`); the `try`/`except` at the function boundary swallows any
such failure and returns `None` with the state untouched.  The in-memory
balance and holdings are never written by this function; a trade record is
appended only after the order call succeeds. -/
def live_trade (client : ExchangeClient) (st : Strategy) (symbol : String)
    (signal : Int) (current_price : ℚ) (timestamp : String) :
    Strategy × Option Trade :=
  if signal = 0 ∨ st.mode ≠ "live" then (st, none)
  else if 0 < signal then
    match client.get_account with
    | .error _ => (st, none)
    | .ok balances =>
      let base_asset_balance := dictGet balances st.base_currency
      if base_asset_balance ≤ 0 then (st, none)
      else
        let risk_amount := base_asset_balance * (st.risk_percentage / 100)
        let quantity := round_quantity client symbol (risk_amount / current_price)
        if quantity ≤ 0 then (st, none)
        else
          match client.create_order symbol "BUY" quantity with
          | .error _ => (st, none)
          | .ok oid =>
            let trade : Trade :=
              { timestamp := timestamp, symbol := symbol, side := "BUY"
                quantity := quantity, price := current_price
                value := quantity * current_price
                balance_after := none, holdings_after := none
                type := "live", order_id := some oid }
            ({ st with trade_history := st.trade_history ++ [trade] }, some trade)
  else
    match client.get_account with
    | .error _ => (st, none)
    | .ok balances =>
      let asset := symbol.replace st.base_currency ""
      let asset_balance := dictGet balances asset
      if asset_balance ≤ 0 then (st, none)
      else
        match client.create_order symbol "SELL" asset_balance with
        | .error _ => (st, none)
        | .ok oid =>
          let trade : Trade :=
            { timestamp := timestamp, symbol := symbol, side := "SELL"
              quantity := asset_balance, price := current_price
              value := asset_balance * current_price
              balance_after := none, holdings_after := none
              type := "live", order_id := some oid }
          ({ st with trade_history := st.trade_history ++ [trade] }, some trade)

/-- Python `d.get(k)` with no default: `none` when the key is absent. -/
def dictFind (d : List (String × ℚ)) (k : String) : Option ℚ :=
  match d with
  | [] => none
  | p :: rest => if p.1 = k then some p.2 else dictFind rest k

/-- One iteration of the valuation loop in `calculate_portfolio_value`: a
positive position is valued at the remembered last price when that price is
truthy (present and non-zero); otherwise a ticker fetch is attempted and
remembered, and a failed fetch skips the position. -/
def value_step (client : ExchangeClient) (acc : ℚ × List (String × ℚ))
    (p : String × ℚ) : ℚ × List (String × ℚ) :=
  if 0 < p.2 then
    let price := (dictFind acc.2 p.1).getD 0
    if price ≠ 0 then (acc.1 + p.2 * price, acc.2)
    else
      match client.get_symbol_ticker p.1 with
      | .ok tp => (acc.1 + p.2 * tp, dictSet acc.2 p.1 tp)
      | .error _ => acc
  else acc

/-- `calculate_portfolio_value()`: cash balance plus the value of every
positive holding; returns the total and the updated `last_prices` (the
loop memoizes freshly fetched prices into it). -/
def calculate_portfolio_value (client : ExchangeClient) (st : Strategy) :
    ℚ × List (String × ℚ) :=
  st.holdings.foldl (value_step client) (st.balance, st.last_prices)

/-- `update_equity_history()`: append the current portfolio value, then
keep only the last 10000 points when the list has grown beyond 10000. -/
def update_equity_history (client : ExchangeClient) (st : Strategy)
    (now : String) : Strategy :=
  let pv := calculate_portfolio_value client st
  let eh := st.equity_history ++ [{ timestamp := now, equity := pv.1 }]
  { st with
    last_prices := pv.2
    equity_history := if 10000 < eh.length then eh.drop (eh.length - 10000) else eh }

/-- An API key/secret pair as stored in backup files and in the snapshot's
embedded `api_keys` block (missing JSON keys parse as empty strings). -/
structure KeyPair where
  key : String
  secret : String
deriving DecidableEq

/-- The JSON snapshot record written to `paper_trading_state.json`. -/
structure SnapshotState where
  balance : ℚ
  holdings : List (String × ℚ)
  open_orders : List String
  equity_history : List EquityPoint
  trade_history : List Trade
  last_prices : List (String × ℚ)
  api_keys : KeyPair
  mode : String
  is_running : Bool
  last_updated : String

/-- `save_state()`: the snapshot content written to disk — every field is
serialized verbatim from the in-memory state (directory creation and I/O
error swallowing do not affect the content). -/
def save_state (st : Strategy) (now : String) : SnapshotState :=
  { balance := st.balance
    holdings := st.holdings
    open_orders := st.open_orders
    equity_history := st.equity_history
    trade_history := st.trade_history
    last_prices := st.last_prices
    api_keys := { key := st.config.api_key, secret := st.config.api_secret }
    mode := st.mode
    is_running := st.is_running
    last_updated := now }

/-- `load_state()` applied to an existing snapshot: restores every
`PortfolioState` field, opportunistically restores the embedded API keys
into the config when the config's keys are missing, and restores the
mode. -/
def load_state (st : Strategy) (snap : SnapshotState) : Strategy :=
  let st1 := { st with
    balance := snap.balance
    holdings := snap.holdings
    open_orders := snap.open_orders
    equity_history := snap.equity_history
    trade_history := snap.trade_history
    last_prices := snap.last_prices }
  let st2 :=
    if snap.api_keys.key ≠ "" ∧ snap.api_keys.secret ≠ "" ∧
        (st1.config.api_key = "" ∨ st1.config.api_secret = "") then
      { st1 with config := { st1.config with
          api_key := snap.api_keys.key
          api_secret := snap.api_keys.secret } }
    else st1
  { st2 with mode := snap.mode }

/-- `generate_signals(df)`: moving-average crossover first (it takes
priority), RSI thresholds as fallback.  `df.iloc[-1]` on an empty frame
raises `IndexError`, modelled as `none`; with at least one row the previous
bar is `df.iloc[-2]` when the frame has more than one row and the latest
bar itself otherwise. -/
def generate_signals (params : StrategyParams) (df : List Bar) : Option Int :=
  match df.getLast? with
  | none => none
  | some latest =>
    let previous := if 1 < df.length then (df[df.length - 2]?).getD latest else latest
    let ma_signal : Int :=
      if latest.SMA_short > latest.SMA_long ∧ previous.SMA_short ≤ previous.SMA_long
        then 1
      else if latest.SMA_short < latest.SMA_long ∧ previous.SMA_short ≥ previous.SMA_long
        then -1
      else 0
    let rsi_signal : Int :=
      if latest.RSI < params.rsi_oversold then 1
      else if latest.RSI > params.rsi_overbought then -1
      else 0
    some (if ma_signal ≠ 0 then ma_signal else rsi_signal)

/-- The default `strategy_params` of the class. -/
def default_params : StrategyParams :=
  { short_window := 50, long_window := 200, rsi_period := 14
    rsi_overbought := 70, rsi_oversold := 30 }

/-- Reading one credential fallback source: `none` when the file is
missing or unreadable; a readable source yields its key/secret pair, which
is adopted only when both components are non-empty. -/
def source_pair (src : Option KeyPair) : Option KeyPair :=
  match src with
  | some p => if p.key ≠ "" ∧ p.secret ≠ "" then some p else none
  | none => none

/-- The ordered fallback sources consulted by
`recover_api_keys_if_needed`: the dedicated `api_keys_backup.json` file,
then the persisted state snapshot's embedded `api_keys` block, then the
fixed ordered list of well-known alternate paths. -/
structure CredentialSources where
  backup_file : Option KeyPair
  state_file : Option KeyPair
  alt_files : List (Option KeyPair)

/-- First source in order yielding a non-empty key+secret pair. -/
def first_valid : List (Option KeyPair) → Option KeyPair
  | [] => none
  | s :: rest =>
    match source_pair s with
    | some p => some p
    | none => first_valid rest

/-- `recover_api_keys_if_needed()`: when the config already holds a truthy
key *and* secret, nothing happens and `True` is returned; otherwise the
fallback sources are consulted in strict order, the first non-empty pair is
written into the config (returning `True`), and on exhausting every source
the config is left unchanged and `False` is returned — no exception
escapes. -/
def recover_api_keys_if_needed (fs : CredentialSources) (config : KeyPair) :
    KeyPair × Bool :=
  if config.key ≠ "" ∧ config.secret ≠ "" then (config, true)
  else
    match first_valid (fs.backup_file :: fs.state_file :: fs.alt_files) with
    | some p => (p, true)
    | none => (config, false)

/-- A file written by the persistence layer, with its content. -/
inductive FileWrite where
  | config_file (c : Config)
  | state_file (s : SnapshotState)
  | keys_backup_file (k : KeyPair)
  | results_file

/-- `backup_api_keys()`: a no-op unless both keys are non-empty; otherwise
saves the state snapshot (which embeds the keys) and writes the dedicated
`api_keys_backup.json` file. -/
def backup_api_keys (st : Strategy) (now : String) : List FileWrite :=
  if st.config.api_key ≠ "" ∧ st.config.api_secret ≠ "" then
    [FileWrite.state_file (save_state st now),
     FileWrite.keys_backup_file { key := st.config.api_key, secret := st.config.api_secret }]
  else []

/-- `save_config()`: writes the config file (after a best-effort `.bak`
copy of the previous content), refreshes the client handle when the keys
changed, and triggers the redundant key backup. -/
def save_config (st : Strategy) (now : String) : List FileWrite :=
  FileWrite.config_file st.config :: backup_api_keys st now

/-- `stop()`: a no-op when not running; otherwise clears the running flag,
saves the state and exports a results snapshot (the thread join is
scheduling, not state). -/
def stop (st : Strategy) (now : String) : Strategy × List FileWrite :=
  if st.is_running = false then (st, [])
  else
    let st1 := { st with is_running := false }
    (st1, [FileWrite.state_file (save_state st1 now), FileWrite.results_file])

/-- `switch_mode(new_mode)`: rejects unknown modes with a bare `return`
(`none`); rejects live mode without configured keys (`False`); otherwise
stops a running loop, switches `mode` both in memory and in the config
dict, persists config and state, restarts the loop if it was running, and
returns `True`.  The result carries the new state, the Python return
value, and the trace of files written. -/
def switch_mode (st : Strategy) (new_mode : String) (now : String) :
    Strategy × Option Bool × List FileWrite :=
  if new_mode ≠ "paper" ∧ new_mode ≠ "live" then (st, none, [])
  else if new_mode = "live" ∧ (st.config.api_key = "" ∨ st.config.api_secret = "") then
    (st, some false, [])
  else
    let stopped := if st.is_running then stop st now else (st, [])
    let st2 := { stopped.1 with
      mode := new_mode
      config := { stopped.1.config with mode := new_mode } }
    let writes := stopped.2 ++ save_config st2 now
      ++ [FileWrite.state_file (save_state st2 now)]
    let st3 := if st.is_running then { st2 with is_running := true } else st2
    (st3, some true, writes)

/-- The default strategy switched to live mode with configured keys. -/
def live_strategy : Strategy :=
  { default_strategy with
    mode := "live"
    config := { api_key := "live-key", api_secret := "live-secret", mode := "live" } }

/-- A state whose in-memory equity history holds 10001 points (for example
restored by `load_state` from a snapshot that was written by another
producer of the shared state file). -/
def replicated_history_strategy : Strategy :=
  { default_strategy with
    equity_history := List.replicate 10001 { timestamp := "t", equity := 10000 } }

/-- A config whose key is present but whose secret is empty. -/
def half_empty_config : KeyPair := { key := "primary-key", secret := "" }

/-- Only the dedicated backup file exists and holds a full pair. -/
def backup_only_sources : CredentialSources :=
  { backup_file := some { key := "backup-key", secret := "backup-secret" }
    state_file := none
    alt_files := [] }

/-- The backup file is missing; the state snapshot holds a full pair; a
lower-priority alternate file holds a different pair. -/
def state_only_sources : CredentialSources :=
  { backup_file := none
    state_file := some { key := "state-key", secret := "state-secret" }
    alt_files := [some { key := "alt-key", secret := "alt-secret" }] }

/-! ## Theorems -/

theorem dictGet_nonneg : ∀ (d : List (String × ℚ)),
    (∀ p ∈ d, 0 ≤ p.2) → ∀ k, 0 ≤ dictGet d k
  | [], _, _ => le_refl 0
  | p :: rest, h, k => by
    simp only [dictGet]
    split
    · exact h p (List.mem_cons_self p rest)
    · exact dictGet_nonneg rest (fun q hq => h q (List.mem_cons_of_mem _ hq)) k

theorem dictSet_forall_nonneg : ∀ (d : List (String × ℚ)) (k : String) (v : ℚ),
    (∀ p ∈ d, 0 ≤ p.2) → 0 ≤ v → ∀ p ∈ dictSet d k v, 0 ≤ p.2
  | [], k, v, _, hv => by
    intro p hp
    simp only [dictSet, List.mem_singleton] at hp
    simp [hp, hv]
  | q :: rest, k, v, h, hv => by
    simp only [dictSet]
    split
    · intro p hp
      rcases List.mem_cons.mp hp with rfl | hp2
      · exact hv
      · exact h p (List.mem_cons_of_mem _ hp2)
    · intro p hp
      rcases List.mem_cons.mp hp with rfl | hp2
      · exact h p (List.mem_cons_self p rest)
      · exact dictSet_forall_nonneg rest k v
          (fun r hr => h r (List.mem_cons_of_mem _ hr)) hv p hp2

theorem dictGet_dictSet_self : ∀ (d : List (String × ℚ)) (k : String) (v : ℚ),
    dictGet (dictSet d k v) k = v
  | [], k, v => by simp [dictSet, dictGet]
  | q :: rest, k, v => by
    simp only [dictSet]
    split
    · simp [dictGet]
    · next hne =>
      simp only [dictGet, if_neg hne]
      exact dictGet_dictSet_self rest k v

theorem floor_to_le (p : Nat) (q : ℚ) : floor_to p q ≤ q := by
  unfold floor_to
  rw [div_le_iff₀ (by positivity : (0 : ℚ) < 10 ^ p)]
  exact Int.floor_le _

theorem floor_to_nonneg (p : Nat) {q : ℚ} (h : 0 ≤ q) : 0 ≤ floor_to p q := by
  unfold floor_to
  apply div_nonneg _ (by positivity)
  exact_mod_cast Int.floor_nonneg.mpr (mul_nonneg h (by positivity))

theorem round_quantity_le (client : ExchangeClient) (symbol : String) (q : ℚ) :
    round_quantity client symbol q ≤ q :=
  floor_to_le _ q

theorem round_quantity_nonneg (client : ExchangeClient) (symbol : String)
    {q : ℚ} (h : 0 ≤ q) : 0 ≤ round_quantity client symbol q :=
  floor_to_nonneg _ h

/-- C9: `round_quantity` never increases a non-negative quantity
(`0 <= round_quantity(symbol, q) <= q`), so the cost a paper BUY debits
never exceeds `risk_percentage/100` of the pre-trade balance. -/
theorem round_quantity_bounds (client : ExchangeClient) (symbol : String)
    (q : ℚ) (hq : 0 ≤ q) :
    (0 ≤ round_quantity client symbol q ∧ round_quantity client symbol q ≤ q) ∧
    ∀ (st : Strategy) (signal : Int) (price : ℚ) (ts : String),
      0 < price → 0 ≤ st.balance → 0 ≤ st.risk_percentage →
      st.balance - (paper_trade client st symbol signal price ts).1.balance
        ≤ st.risk_percentage / 100 * st.balance := by
  refine ⟨⟨round_quantity_nonneg client symbol hq, round_quantity_le client symbol q⟩, ?_⟩
  intro st signal price ts hp hb hr
  have hrhs : 0 ≤ st.risk_percentage / 100 * st.balance := by positivity
  by_cases h0 : signal = 0
  · simp [paper_trade, h0]
    linarith
  by_cases h1 : 0 < signal
  · by_cases h2 : st.balance ≤ 0
    · simp [paper_trade, h0, h1, h2]
      linarith
    by_cases h3 : round_quantity client symbol
        (st.balance * (st.risk_percentage / 100) / price) ≤ 0
    · simp only [paper_trade, if_neg h0, if_pos h1, if_neg h2, if_pos h3]
      linarith
    · -- executed BUY: the debit is the floored quantity times the price
      have hle := round_quantity_le client symbol
        (st.balance * (st.risk_percentage / 100) / price)
      have hcost := mul_le_mul_of_nonneg_right hle (le_of_lt hp)
      rw [div_mul_cancel₀ _ (ne_of_gt hp)] at hcost
      simp only [paper_trade, if_neg h0, if_pos h1, if_neg h2, if_neg h3]
      linarith
  · by_cases h4 : dictGet st.holdings symbol ≤ 0
    · simp only [paper_trade, if_neg h0, if_neg h1, if_pos h4]
      linarith
    · -- executed SELL: the balance only increases
      have hv : 0 ≤ dictGet st.holdings symbol * price := by
        have h5 := le_of_lt (not_le.mp h4)
        positivity
      simp only [paper_trade, if_neg h0, if_neg h1, if_neg h4]
      linarith

/-- C2: a paper BUY with positive balance and price sizes the order as
`risk_percentage/100 * balance / current_price` floored to the tradable
precision; on success the balance drops by exactly `quantity * price`, the
symbol's holdings rise by exactly `quantity`, and a single BUY trade record
is appended and returned. -/
theorem paper_buy_exec (client : ExchangeClient) (st : Strategy) (symbol : String)
    (signal : Int) (current_price : ℚ) (ts : String)
    (hs : 0 < signal) (hb : 0 < st.balance) (hp : 0 < current_price)
    (hq : 0 < round_quantity client symbol
      (st.balance * (st.risk_percentage / 100) / current_price)) :
    ∃ t : Trade,
      paper_trade client st symbol signal current_price ts =
        ({ st with
            balance := st.balance - round_quantity client symbol
              (st.balance * (st.risk_percentage / 100) / current_price) * current_price
            holdings := dictSet st.holdings symbol (dictGet st.holdings symbol +
              round_quantity client symbol
                (st.balance * (st.risk_percentage / 100) / current_price))
            trade_history := st.trade_history ++ [t] }, some t) ∧
      t.side = "BUY" ∧
      t.quantity = round_quantity client symbol
        (st.balance * (st.risk_percentage / 100) / current_price) ∧
      t.price = current_price ∧
      t.value = t.quantity * current_price ∧
      t.balance_after = some (st.balance - t.quantity * current_price) ∧
      dictGet (dictSet st.holdings symbol (dictGet st.holdings symbol + t.quantity)) symbol
        = dictGet st.holdings symbol + t.quantity := by
  have h0 : ¬ signal = 0 := by omega
  have h2 : ¬ st.balance ≤ 0 := not_le.mpr hb
  have h3 : ¬ round_quantity client symbol
      (st.balance * (st.risk_percentage / 100) / current_price) ≤ 0 := not_le.mpr hq
  simp only [paper_trade, if_neg h0, if_pos hs, if_neg h2, if_neg h3]
  exact ⟨_, rfl, rfl, rfl, rfl, rfl, rfl, dictGet_dictSet_self _ _ _⟩

/-- C3: a paper SELL with no positive holding of the symbol is a no-op
returning no trade and leaving the state untouched; otherwise it liquidates
the entire holding at the current price, credits exactly
`holdings[symbol] * price`, zeroes the holding, and appends and returns a
single SELL trade record. -/
theorem paper_sell_exec (client : ExchangeClient) (st : Strategy) (symbol : String)
    (signal : Int) (current_price : ℚ) (ts : String) (hs : signal < 0) :
    (dictGet st.holdings symbol ≤ 0 →
      paper_trade client st symbol signal current_price ts = (st, none)) ∧
    (0 < dictGet st.holdings symbol →
      ∃ t : Trade,
        paper_trade client st symbol signal current_price ts =
          ({ st with
              balance := st.balance + dictGet st.holdings symbol * current_price
              holdings := dictSet st.holdings symbol 0
              trade_history := st.trade_history ++ [t] }, some t) ∧
        t.side = "SELL" ∧
        t.quantity = dictGet st.holdings symbol ∧
        t.price = current_price ∧
        t.value = dictGet st.holdings symbol * current_price ∧
        dictGet (dictSet st.holdings symbol 0) symbol = 0) := by
  have h0 : ¬ signal = 0 := by omega
  have h1 : ¬ 0 < signal := by omega
  constructor
  · intro hle
    simp only [paper_trade, if_neg h0, if_neg h1, if_pos hle]
  · intro hgt
    simp only [paper_trade, if_neg h0, if_neg h1, if_neg (not_le.mpr hgt)]
    exact ⟨_, rfl, rfl, rfl, rfl, rfl, dictGet_dictSet_self _ _ _⟩

theorem paper_trade_fst_risk (client : ExchangeClient) (st : Strategy)
    (symbol : String) (signal : Int) (price : ℚ) (ts : String) :
    (paper_trade client st symbol signal price ts).1.risk_percentage
      = st.risk_percentage := by
  simp only [paper_trade]
  split_ifs <;> rfl

theorem paper_trade_step_nonneg (client : ExchangeClient) (st : Strategy)
    (symbol : String) (signal : Int) (price : ℚ) (ts : String)
    (hp : 0 < price) (hr0 : 0 ≤ st.risk_percentage) (hr1 : st.risk_percentage ≤ 100)
    (hb : 0 ≤ st.balance) (hh : ∀ p ∈ st.holdings, 0 ≤ p.2) :
    0 ≤ (paper_trade client st symbol signal price ts).1.balance ∧
    ∀ p ∈ (paper_trade client st symbol signal price ts).1.holdings, 0 ≤ p.2 := by
  by_cases h0 : signal = 0
  · simp only [paper_trade, if_pos h0]
    exact ⟨hb, hh⟩
  by_cases h1 : 0 < signal
  · by_cases h2 : st.balance ≤ 0
    · simp only [paper_trade, if_neg h0, if_pos h1, if_pos h2]
      exact ⟨hb, hh⟩
    by_cases h3 : round_quantity client symbol
        (st.balance * (st.risk_percentage / 100) / price) ≤ 0
    · simp only [paper_trade, if_neg h0, if_pos h1, if_neg h2, if_pos h3]
      exact ⟨hb, hh⟩
    · have hle := round_quantity_le client symbol
        (st.balance * (st.risk_percentage / 100) / price)
      have hcost := mul_le_mul_of_nonneg_right hle (le_of_lt hp)
      rw [div_mul_cancel₀ _ (ne_of_gt hp)] at hcost
      have hfrac : st.risk_percentage / 100 ≤ 1 := by
        rw [div_le_one (by norm_num : (0 : ℚ) < 100)]
        exact hr1
      have hra : st.balance * (st.risk_percentage / 100) ≤ st.balance :=
        mul_le_of_le_one_right hb hfrac
      simp only [paper_trade, if_neg h0, if_pos h1, if_neg h2, if_neg h3]
      refine ⟨by linarith, ?_⟩
      apply dictSet_forall_nonneg st.holdings symbol _ hh
      have hg := dictGet_nonneg st.holdings hh symbol
      have hq := not_le.mp h3
      linarith
  · by_cases h4 : dictGet st.holdings symbol ≤ 0
    · simp only [paper_trade, if_neg h0, if_neg h1, if_pos h4]
      exact ⟨hb, hh⟩
    · have hch := not_le.mp h4
      have hv := mul_pos hch hp
      simp only [paper_trade, if_neg h0, if_neg h1, if_neg h4]
      refine ⟨by linarith, ?_⟩
      exact dictSet_forall_nonneg st.holdings symbol 0 hh le_rfl

theorem run_paper_trades_nonneg (client : ExchangeClient) :
    ∀ (ops : List TradeOp) (st : Strategy),
      0 ≤ st.risk_percentage → st.risk_percentage ≤ 100 →
      0 ≤ st.balance → (∀ p ∈ st.holdings, 0 ≤ p.2) →
      (∀ op ∈ ops, 0 < op.price) →
      0 ≤ (run_paper_trades client st ops).balance ∧
      ∀ p ∈ (run_paper_trades client st ops).holdings, 0 ≤ p.2
  | [], _, _, _, hb, hh, _ => ⟨hb, hh⟩
  | op :: rest, st, hr0, hr1, hb, hh, hp => by
    have hstep := paper_trade_step_nonneg client st op.symbol op.signal op.price
      op.timestamp (hp op (List.mem_cons_self op rest)) hr0 hr1 hb hh
    have hrisk := paper_trade_fst_risk client st op.symbol op.signal op.price op.timestamp
    have hrest := run_paper_trades_nonneg client rest
      (paper_trade client st op.symbol op.signal op.price op.timestamp).1
      (by rw [hrisk]; exact hr0) (by rw [hrisk]; exact hr1)
      hstep.1 hstep.2 (fun o ho => hp o (List.mem_cons_of_mem _ ho))
    simpa only [run_paper_trades, List.foldl_cons] using hrest

/-- C1: starting from a reset account (with a non-negative initial balance
and a risk percentage between 0 and 100, as in the shipped defaults 10000
and 2), every sequence of paper BUY/SELL/HOLD executions at positive prices
keeps the cash balance and every holdings entry non-negative; since this
holds for arbitrary sequences it holds in particular after every prefix,
i.e. after every operation. -/
theorem paper_trade_preserves_nonneg (client : ExchangeClient) (st : Strategy)
    (now : String) (ops : List TradeOp)
    (hinit : 0 ≤ st.initial_balance)
    (hr0 : 0 ≤ st.risk_percentage) (hr1 : st.risk_percentage ≤ 100)
    (hp : ∀ op ∈ ops, 0 < op.price) :
    0 ≤ (run_paper_trades client (reset_account st now) ops).balance ∧
    ∀ p ∈ (run_paper_trades client (reset_account st now) ops).holdings, 0 ≤ p.2 := by
  apply run_paper_trades_nonneg client ops (reset_account st now) hr0 hr1 hinit _ hp
  intro p hmem
  simp only [reset_account, List.mem_map] at hmem
  obtain ⟨s, _, rfl⟩ := hmem
  exact le_refl 0

theorem paper_trade_preserves_nonneg_witness :
    0 ≤ (run_paper_trades offline_client (reset_account default_strategy "t0")
      [⟨"BTCUSDT", 1, 100, "t1"⟩, ⟨"BTCUSDT", -1, 150, "t2"⟩]).balance ∧
    ∀ p ∈ (run_paper_trades offline_client (reset_account default_strategy "t0")
      [⟨"BTCUSDT", 1, 100, "t1"⟩, ⟨"BTCUSDT", -1, 150, "t2"⟩]).holdings, 0 ≤ p.2 := by
  apply paper_trade_preserves_nonneg offline_client default_strategy "t0" _
    (by norm_num [default_strategy]) (by norm_num [default_strategy])
    (by norm_num [default_strategy])
  intro op hop
  simp only [List.mem_cons, List.not_mem_nil, or_false] at hop
  rcases hop with rfl | rfl <;> norm_num

theorem paper_buy_exec_witness :
    (paper_trade offline_client default_strategy "BTCUSDT" 1 100 "t1").1.balance = 9800 ∧
    dictGet (paper_trade offline_client default_strategy "BTCUSDT" 1 100 "t1").1.holdings
      "BTCUSDT" = 2 ∧
    ∃ t : Trade,
      (paper_trade offline_client default_strategy "BTCUSDT" 1 100 "t1").2 = some t ∧
      t.quantity = 2 := by
  have hq2 : round_quantity offline_client "BTCUSDT"
      (default_strategy.balance * (default_strategy.risk_percentage / 100) / 100) = 2 := by
    norm_num [round_quantity, floor_to, offline_client, default_strategy]
  have hg0 : dictGet default_strategy.holdings "BTCUSDT" = 0 := by
    norm_num [dictGet, default_strategy]
  obtain ⟨t, heq, _, hqty, _, _, _, _⟩ :=
    paper_buy_exec offline_client default_strategy "BTCUSDT" 1 100 "t1"
      (by norm_num) (by norm_num [default_strategy]) (by norm_num)
      (by rw [hq2]; norm_num)
  rw [heq]
  refine ⟨?_, ?_, t, rfl, ?_⟩
  · show default_strategy.balance - _ * 100 = 9800
    rw [hq2]
    norm_num [default_strategy]
  · show dictGet (dictSet default_strategy.holdings "BTCUSDT" _) "BTCUSDT" = 2
    rw [dictGet_dictSet_self, hg0, hq2]
    norm_num
  · rw [hqty, hq2]

theorem paper_sell_exec_witness :
    (paper_trade offline_client held_strategy "BTCUSDT" (-1) 150 "t2").1.balance = 10100 ∧
    dictGet (paper_trade offline_client held_strategy "BTCUSDT" (-1) 150 "t2").1.holdings
      "BTCUSDT" = 0 ∧
    paper_trade offline_client default_strategy "BTCUSDT" (-1) 150 "t2"
      = (default_strategy, none) := by
  have hg2 : dictGet held_strategy.holdings "BTCUSDT" = 2 := by
    norm_num [dictGet, held_strategy]
  have hg0 : dictGet default_strategy.holdings "BTCUSDT" ≤ 0 := by
    norm_num [dictGet, default_strategy]
  obtain ⟨_, hyes⟩ :=
    paper_sell_exec offline_client held_strategy "BTCUSDT" (-1) 150 "t2" (by norm_num)
  obtain ⟨t, heq, _, _, _, _, hzero⟩ := hyes (by rw [hg2]; norm_num)
  obtain ⟨hno, _⟩ :=
    paper_sell_exec offline_client default_strategy "BTCUSDT" (-1) 150 "t2" (by norm_num)
  rw [heq]
  refine ⟨?_, hzero, hno hg0⟩
  show held_strategy.balance + dictGet held_strategy.holdings "BTCUSDT" * 150 = 10100
  rw [hg2]
  norm_num [held_strategy]

theorem round_quantity_bounds_witness :
    (0 ≤ round_quantity offline_client "BTCUSDT" 2 ∧
      round_quantity offline_client "BTCUSDT" 2 ≤ 2) ∧
    default_strategy.balance -
        (paper_trade offline_client default_strategy "BTCUSDT" 1 100 "t1").1.balance
      ≤ default_strategy.risk_percentage / 100 * default_strategy.balance := by
  obtain ⟨h1, h2⟩ := round_quantity_bounds offline_client "BTCUSDT" 2 (by norm_num)
  exact ⟨h1, h2 default_strategy 1 100 "t1" (by norm_num)
    (by norm_num [default_strategy]) (by norm_num [default_strategy])⟩

/-- C4: when the exchange collaborator raises — the account call fails, or
every order call fails (authentication failure, insufficient funds, network
error, rate limit) — `live_trade` returns no trade and leaves every
`PortfolioState` field untouched: the failure is caught at the execution
boundary and does not propagate. -/
theorem live_trade_failure_no_mutation (client : ExchangeClient) (st : Strategy)
    (symbol : String) (signal : Int) (current_price : ℚ) (ts : String)
    (hfail : (∃ e, client.get_account = .error e) ∨
             (∃ e, ∀ s side q, client.create_order s side q = .error e)) :
    live_trade client st symbol signal current_price ts = (st, none) := by
  rcases hfail with ⟨e, he⟩ | ⟨e, he⟩
  · simp [live_trade, he]
  · simp only [live_trade]
    cases hacc : client.get_account with
    | error e2 => simp
    | ok balances => simp [he]

theorem live_trade_failure_no_mutation_witness :
    live_trade offline_client live_strategy "BTCUSDT" 1 100 "t1"
      = (live_strategy, none) :=
  live_trade_failure_no_mutation offline_client live_strategy "BTCUSDT" 1 100 "t1"
    (Or.inl ⟨"APIError: connection refused", rfl⟩)

/-- C5 counterexample: `save_state` serializes the in-memory
`equity_history` verbatim and applies no cap of its own — on a state whose
history holds 10001 points the written snapshot holds 10001 > 10000
points, contradicting the claim that the snapshot written by `save_state`
is capped at the 10000 most-recent entries. -/
theorem save_state_uncapped_counterexample :
    (save_state replicated_history_strategy "t").equity_history.length = 10001 ∧
    10000 < (save_state replicated_history_strategy "t").equity_history.length := by
  have h : (save_state replicated_history_strategy "t").equity_history
      = List.replicate 10001 { timestamp := "t", equity := 10000 } := rfl
  rw [h, List.length_replicate]
  exact ⟨rfl, by norm_num⟩

/-- C5 (amended): the 10000-entry bound is enforced by
`update_equity_history`, not by `save_state`: after every equity-history
update the list holds at most 10000 points and is a suffix of the previous
history with the new point appended (the most recent entries in
chronological order), while `save_state` writes the in-memory
`equity_history` verbatim — so the snapshot is capped exactly when the
in-memory history is, which every update guarantees. -/
theorem equity_history_cap_amended (client : ExchangeClient) (st : Strategy)
    (now ts : String) :
    (update_equity_history client st now).equity_history.length ≤ 10000 ∧
    (∃ e, List.IsSuffix (update_equity_history client st now).equity_history
      (st.equity_history ++ [e])) ∧
    (save_state st ts).equity_history = st.equity_history := by
  refine ⟨?_, ?_, rfl⟩
  · simp only [update_equity_history]
    split_ifs with h
    · rw [List.length_drop]
      omega
    · exact not_lt.mp h
  · refine ⟨{ timestamp := now
              equity := (calculate_portfolio_value client st).1 }, ?_⟩
    simp only [update_equity_history]
    split_ifs with h
    · exact List.drop_suffix _ _
    · exact List.suffix_refl _

/-- C7: serializing a state with `save_state` and restoring the snapshot
with `load_state` (into any strategy instance) restores the balance and
holdings exactly and preserves the lengths of the trade history and the
equity history. -/
theorem save_load_round_trip (st st0 : Strategy) (now : String) :
    (load_state st0 (save_state st now)).balance = st.balance ∧
    (load_state st0 (save_state st now)).holdings = st.holdings ∧
    (load_state st0 (save_state st now)).trade_history.length
      = st.trade_history.length ∧
    (load_state st0 (save_state st now)).equity_history.length
      = st.equity_history.length := by
  simp only [load_state, save_state]
  split_ifs <;> simp

/-- C8: with fewer than 2 bars the previous bar is taken equal to the
latest bar, which makes both moving-average crossover conditions
structurally unsatisfiable; the generated signal (when the frame is
non-empty) is exactly the RSI-only rule — BUY below the oversold
threshold, SELL above the overbought threshold, otherwise HOLD. -/
theorem cold_start_rsi_only (params : StrategyParams) (df : List Bar)
    (h : df.length < 2) :
    generate_signals params df = df.getLast?.map (fun latest =>
      if latest.RSI < params.rsi_oversold then 1
      else if latest.RSI > params.rsi_overbought then -1
      else 0) := by
  match df, h with
  | [], _ => rfl
  | [b], _ =>
    have h1 : ¬(b.SMA_short > b.SMA_long ∧ b.SMA_short ≤ b.SMA_long) :=
      fun hc => absurd hc.2 (not_le.mpr hc.1)
    have h2 : ¬(b.SMA_short < b.SMA_long ∧ b.SMA_short ≥ b.SMA_long) :=
      fun hc => absurd hc.2 (not_le.mpr hc.1)
    simp [generate_signals, if_neg h1, if_neg h2]

theorem cold_start_rsi_only_witness :
    generate_signals default_params [{ SMA_short := 1, SMA_long := 2, RSI := 20 }]
      = some 1 := by
  rw [cold_start_rsi_only default_params
    [{ SMA_short := 1, SMA_long := 2, RSI := 20 }] (by norm_num)]
  norm_num [default_params]

/-- C6 counterexample: with a non-empty `api_key` but an empty
`api_secret`, recovery still runs (the code skips it only when *both*
fields are truthy) and overwrites the non-empty primary key with the
backup file's pair — refuting the claim that recovery runs only when the
key and secret fields are both empty. -/
theorem recover_single_empty_counterexample :
    half_empty_config.key ≠ "" ∧
    (recover_api_keys_if_needed backup_only_sources half_empty_config).1
      ≠ half_empty_config ∧
    (recover_api_keys_if_needed backup_only_sources half_empty_config).1
      = { key := "backup-key", secret := "backup-secret" } := by
  refine ⟨by decide, by decide, by decide⟩

theorem first_valid_all_none : ∀ (l : List (Option KeyPair)),
    (∀ s ∈ l, source_pair s = none) → first_valid l = none
  | [], _ => rfl
  | s :: rest, h => by
    simp only [first_valid, h s (List.mem_cons_self s rest)]
    exact first_valid_all_none rest (fun x hx => h x (List.mem_cons_of_mem _ hx))

theorem first_valid_append_none : ∀ (pre l : List (Option KeyPair)),
    (∀ s ∈ pre, source_pair s = none) → first_valid (pre ++ l) = first_valid l
  | [], l, _ => rfl
  | s :: pre, l, h => by
    simp only [List.cons_append, first_valid, h s (List.mem_cons_self s pre)]
    exact first_valid_append_none pre l (fun x hx => h x (List.mem_cons_of_mem _ hx))

/-- C6 (amended): recovery runs whenever the key *or* the secret is empty
(not only when both are).  In that case the sources are consulted in
strict order — dedicated backup file, state snapshot block, well-known
paths — and the first source holding a non-empty key+secret pair
determines the exact pair written back into the config, independently of
every lower-priority source; when every source is exhausted the config is
unchanged and recovery reports failure without raising. -/
theorem recover_priority_amended (fs : CredentialSources) (config : KeyPair)
    (h : config.key = "" ∨ config.secret = "") :
    (∀ pre src post p,
      fs.backup_file :: fs.state_file :: fs.alt_files = pre ++ src :: post →
      (∀ s ∈ pre, source_pair s = none) → source_pair src = some p →
      recover_api_keys_if_needed fs config = (p, true)) ∧
    ((∀ s ∈ fs.backup_file :: fs.state_file :: fs.alt_files,
        source_pair s = none) →
      recover_api_keys_if_needed fs config = (config, false)) := by
  have hnotboth : ¬(config.key ≠ "" ∧ config.secret ≠ "") := by
    rcases h with h | h <;> simp [h]
  constructor
  · intro pre src post p heq hpre hsrc
    simp only [recover_api_keys_if_needed, if_neg hnotboth, heq]
    rw [first_valid_append_none pre _ hpre]
    simp [first_valid, hsrc]
  · intro hall
    simp only [recover_api_keys_if_needed, if_neg hnotboth]
    rw [first_valid_all_none _ hall]

theorem recover_priority_amended_witness :
    recover_api_keys_if_needed state_only_sources { key := "", secret := "" }
      = ({ key := "state-key", secret := "state-secret" }, true) := by
  have h := (recover_priority_amended state_only_sources
    { key := "", secret := "" } (Or.inl rfl)).1
  exact h [none] (some { key := "state-key", secret := "state-secret" })
    [some { key := "alt-key", secret := "alt-secret" }]
    { key := "state-key", secret := "state-secret" } rfl
    (by intro s hs
        simp only [List.mem_singleton] at hs
        subst hs
        rfl)
    (by decide)

/-- C10: `switch_mode` with a mode other than "paper"/"live" leaves the
state, mode and config untouched, writes nothing and returns no value
(bare `return`); switching to "live" with a missing key or secret returns
`False` and changes and writes nothing; a valid transition sets the mode
both in memory and in the config and writes both the config file and a
state snapshot carrying the new mode. -/
theorem switch_mode_guards (st : Strategy) (new_mode : String) (now : String) :
    (new_mode ≠ "paper" → new_mode ≠ "live" →
      switch_mode st new_mode now = (st, none, [])) ∧
    (new_mode = "live" → st.config.api_key = "" ∨ st.config.api_secret = "" →
      switch_mode st new_mode now = (st, some false, [])) ∧
    ((new_mode = "paper" ∨
        (new_mode = "live" ∧ st.config.api_key ≠ "" ∧ st.config.api_secret ≠ "")) →
      (switch_mode st new_mode now).1.mode = new_mode ∧
      (switch_mode st new_mode now).1.config.mode = new_mode ∧
      (switch_mode st new_mode now).2.1 = some true ∧
      (∃ c, FileWrite.config_file c ∈ (switch_mode st new_mode now).2.2 ∧
        c.mode = new_mode) ∧
      (∃ s, FileWrite.state_file s ∈ (switch_mode st new_mode now).2.2 ∧
        s.mode = new_mode)) := by
  refine ⟨?_, ?_, ?_⟩
  · intro h1 h2
    simp only [switch_mode, if_pos (And.intro h1 h2)]
  · intro h1 h2
    have hg1 : ¬(new_mode ≠ "paper" ∧ new_mode ≠ "live") := by
      intro hc
      exact hc.2 h1
    simp only [switch_mode, if_neg hg1, if_pos (And.intro h1 h2)]
  · intro hvalid
    have hg1 : ¬(new_mode ≠ "paper" ∧ new_mode ≠ "live") := by
      rcases hvalid with h | h
      · intro hc
        exact hc.1 h
      · intro hc
        exact hc.2 h.1
    have hg2 : ¬(new_mode = "live" ∧
        (st.config.api_key = "" ∨ st.config.api_secret = "")) := by
      rcases hvalid with h | h
      · intro hc
        rw [h] at hc
        exact absurd hc.1 (by decide)
      · intro hc
        rcases hc.2 with hk | hk
        · exact h.2.1 hk
        · exact h.2.2 hk
    simp only [switch_mode, if_neg hg1, if_neg hg2]
    refine ⟨?_, ?_, ?_, ?_, ?_⟩
    · split_ifs <;> rfl
    · split_ifs <;> rfl
    · simp
    · by_cases hrun : st.is_running <;>
        simp [hrun, stop, save_config, backup_api_keys, save_state]
    · by_cases hrun : st.is_running
      · simp [hrun, stop, save_config, backup_api_keys, save_state]
        exact Or.inr ⟨_, Or.inr rfl, rfl⟩
      · simp [hrun, stop, save_config, backup_api_keys, save_state]
        exact ⟨_, Or.inr rfl, rfl⟩

theorem switch_mode_guards_witness :
    switch_mode default_strategy "margin" "t" = (default_strategy, none, []) ∧
    switch_mode default_strategy "live" "t" = (default_strategy, some false, []) ∧
    (switch_mode live_strategy "paper" "t").1.mode = "paper" ∧
    (switch_mode live_strategy "paper" "t").1.config.mode = "paper" ∧
    (switch_mode live_strategy "paper" "t").2.1 = some true := by
  refine ⟨?_, ?_, ?_, ?_, ?_⟩
  · exact (switch_mode_guards default_strategy "margin" "t").1
      (by decide) (by decide)
  · exact (switch_mode_guards default_strategy "live" "t").2.1 rfl (Or.inl rfl)
  · exact ((switch_mode_guards live_strategy "paper" "t").2.2 (Or.inl rfl)).1
  · exact ((switch_mode_guards live_strategy "paper" "t").2.2 (Or.inl rfl)).2.1
  · exact ((switch_mode_guards live_strategy "paper" "t").2.2 (Or.inl rfl)).2.2.1

end PaperTrading
